import Mathlib

/-!
# kitty diff kitten: the event/render core (`tools/cmd/diff/ui.go`)

A shallow embedding of the `Handler` of `ui.go` and a verification of its
specification.

Conventions of the embedding.

* Go `int` is a 64-bit two's complement word.  It is embedded as `Int`, and every
  operation of the source that can leave the range (`int(x)` of an unsigned word,
  `rows - 1`, `+=` on the counters) is wrapped by `wrap64`.  The counter
  `num_written` of `draw_screen` is only incremented while it is below `num_lines`,
  so its increment cannot wrap and is a plain `+ 1`.
* A nil-able Go value (`*Collection`, `map[string]*Patch`, `*LogicalLines`, `error`)
  is an `Option`.
* Everything the main thread does to the outside world is appended, in program order,
  to the ghost field `Handler.events`: terminal operations, calls of `render` and the
  goroutines it starts.
* The channel `async_results` is the list of the envelopes waiting in it, oldest first.
  The functions below are the main thread; a worker finishing is a separate step that
  appends an envelope (`worker_push`), so the channel does not change under a running
  call.
* A run-time panic is the result `Ret.panic`.
-/

namespace KittyDiff

/-! ## Machine integers -/

/-- Two's complement reduction of an integer to a 64-bit Go `int`. -/
def wrap64 (x : Int) : Int :=
  (x + 9223372036854775808) % 18446744073709551616 - 9223372036854775808

/-- Range of a Go `int`. -/
def int_ok (x : Int) : Prop :=
  -9223372036854775808 ≤ x ∧ x < 9223372036854775808

instance (x : Int) : Decidable (int_ok x) := by
  unfold int_ok; infer_instance

/-- Go conversion `int(x)` of an unsigned word. -/
def to_int (x : Nat) : Int := wrap64 (x : Int)

/-- Go slice expression `s[low:]`: defined for `0 ≤ low ≤ len(s)`, a panic otherwise. -/
def slice_from {α : Type} (s : List α) (low : Int) : Option (List α) :=
  if 0 ≤ low ∧ low ≤ (s.length : Int) then some (s.drop low.toNat) else none

/-! ## Data model -/

/-- Go `error`; only its identity matters here. -/
abbrev GoError := String

inductive ResultType
| COLLECTION
| DIFF
| HIGHLIGHT
deriving DecidableEq, Repr

structure ScrollPos where
  logical_line : Int
  screen_line : Int
deriving DecidableEq, Repr

/-- Modelled from the spec: the type `Patch` is declared outside `ui.go`; the diff
engine "produces one Patch per job; Patch exposes added/removed counts". -/
structure Patch where
  added_count : Int
  removed_count : Int
deriving DecidableEq, Repr

/-- One entry of a `Collection` as `Collection.Apply` presents it to its callback:
`(path, typ, changed_path)`. -/
structure CollectionEntry where
  path : String
  typ : String
  changed_path : String
deriving DecidableEq, Repr

/-- Modelled from the spec: the type `Collection` is declared outside `ui.go`; it
"exposes an aggregate added/removed line-count and an iteration contract
forEach(callback(path, entryType, changedCounterpartPath) → error) → error".  The
entries are kept in enumeration order. -/
structure Collection where
  added_count : Int
  removed_count : Int
  entries : List CollectionEntry
deriving DecidableEq, Repr

/-- Modelled from the spec: `Collection.Apply` is defined outside `ui.go`; it calls the
callback on every entry in enumeration order and stops at the first error the callback
returns.  The callback's captured variables are the threaded state `σ`. -/
def Collection.Apply {σ : Type} (f : σ → String → String → String → σ × Option GoError) :
    List CollectionEntry → σ → σ × Option GoError
  | [], s => (s, none)
  | e :: rest, s =>
    match f s e.path e.typ e.changed_path with
    | (s', none) => Collection.Apply f rest s'
    | (s', some err) => (s', some err)

/-- Go `map[string]*Patch`, as its entries in the order a `range` visits them. -/
abbrev DiffMap := List (String × Patch)

/-- Modelled from the spec: the type `LogicalLine` is declared outside `ui.go`; a
logical line exposes "an ordered sequence of pre-wrapped screen-line strings". -/
structure LogicalLine where
  screen_lines : List String
deriving DecidableEq, Repr

/-- Modelled from the spec: the type `LogicalLines` is declared outside `ui.go`; it is
"an ordered sequence of logical lines". -/
structure LogicalLines where
  lines : List LogicalLine
deriving DecidableEq, Repr

structure diff_job where
  file1 : String
  file2 : String
deriving DecidableEq, Repr

structure AsyncResult where
  err : Option GoError
  rtype : ResultType
  collection : Option Collection
  diff_map : Option DiffMap
deriving DecidableEq, Repr

/-- The anonymous struct type of the field `screen_size`. -/
structure ScreenSizeField where
  rows : Int
  columns : Int
  num_lines : Int
deriving DecidableEq, Repr

/-- The part of `loop.ScreenSize` that `ui.go` reads: unsigned cell counts. -/
structure ScreenSize where
  WidthCells : Nat
  HeightCells : Nat
deriving DecidableEq, Repr

/-- The default colours `SetDefaultColor` can set. -/
inductive DefaultColor
| FOREGROUND
| CURSOR
| BACKGROUND
| SELECTION_BG
| SELECTION_FG
deriving DecidableEq, Repr

/-- What the main thread does to the outside world. -/
inductive Event
| StartAtomicUpdate
| EndAtomicUpdate
| GraphicsDeleteVisible
| MoveCursorTo (x y : Int)
| ClearToEndOfScreen
| Println (s : String)
| QueueWriteString (s : String)
| MoveCursorVertically (amt : Int)
| SetDefaultColor (which : DefaultColor) (val : Nat)
| render (collection : Option Collection) (diff_map : Option DiffMap) (columns : Int)
| go_create_collection (left right : String)
| go_diff (jobs : List diff_job) (context_count : Int)
deriving DecidableEq, Repr

structure Handler where
  async_results : List AsyncResult
  left : String
  right : String
  collection : Option Collection
  diff_map : Option DiffMap
  logical_lines : Option LogicalLines
  current_context_count : Int
  original_context_count : Int
  added_count : Int
  removed_count : Int
  screen_size : ScreenSizeField
  scroll_pos : ScrollPos
  events : List Event
deriving DecidableEq, Repr

/-- Result of a call on the main thread: a nil error, an error, or a panic. -/
inductive Ret
| ok
| err (e : GoError)
| panic
deriving DecidableEq, Repr

/-- The collaborators and globals `ui.go` reads. -/
structure Env where
  opts_Context : Int
  conf_Num_context_lines : Nat
  conf_Foreground : Nat
  conf_Background : Nat
  conf_Select_bg : Nat
  conf_Select_fg : Option Nat
  lp_ScreenSize : ScreenSize
  is_path_text : String → Bool
  render : Option Collection → Option DiffMap → Int → Option LogicalLines × Option GoError

/-! ## The functions of `ui.go` -/

/-- Body of `calculate_statistics`'s loop over the map. -/
def calculate_statistics_loop : DiffMap → Int × Int → Int × Int
  | [], acc => acc
  | (_, patch) :: rest, (added, removed) =>
    calculate_statistics_loop rest
      (wrap64 (added + patch.added_count), wrap64 (removed + patch.removed_count))

/-- The method `Handler.calculate_statistics`; `none` is the nil dereference of
`self.collection`. -/
def calculate_statistics (self : Handler) : Option Handler :=
  match self.collection with
  | none => none
  | some c =>
    let r := calculate_statistics_loop (self.diff_map.getD []) (c.added_count, c.removed_count)
    some { self with added_count := r.1, removed_count := r.2 }

/-- The three writes `draw_screen` does for one screen line. -/
def write_screen_line (sl : String) : List Event :=
  [Event.QueueWriteString sl, Event.MoveCursorVertically 1, Event.QueueWriteString "\r"]

/-- Inner loop of `draw_screen`, `for _, sl := range screen_lines`: the events it
emits and the final `num_written`. -/
def draw_screen_inner (num_lines : Int) : List String → Int → List Event × Int
  | [], num_written => ([], num_written)
  | sl :: rest, num_written =>
    let num_written := num_written + 1
    if num_written ≥ num_lines then
      (write_screen_line sl, num_written)
    else
      let r := draw_screen_inner num_lines rest num_written
      (write_screen_line sl ++ r.1, r.2)

/-- Outer loop of `draw_screen`, `for i, line := range ...lines[logical_line:]`, from
index `i` on: the events it emits and whether it panicked. -/
def draw_screen_outer (num_lines screen_line : Int) :
    List LogicalLine → Nat → Int → List Event × Bool
  | [], _, _ => ([], false)
  | line :: rest, i, num_written =>
    if num_written ≥ num_lines then
      ([], false)
    else
      let sliced := if i = 0 then slice_from line.screen_lines screen_line
                    else some line.screen_lines
      match sliced with
      | none => ([], true)
      | some screen_lines =>
        let r := draw_screen_inner num_lines screen_lines num_written
        let r2 := draw_screen_outer num_lines screen_line rest (i + 1) r.2
        (r.1 ++ r2.1, r2.2)

/-- What one call of `draw_screen` emits, and whether it panics.  The deferred
`EndAtomicUpdate` runs on every way out, a panic included. -/
def draw_screen_ops (self : Handler) : List Event × Bool :=
  let head := [Event.StartAtomicUpdate, Event.GraphicsDeleteVisible,
               Event.MoveCursorTo 1 1, Event.ClearToEndOfScreen]
  match self.logical_lines, self.diff_map, self.collection with
  | some ll, some _, some _ =>
    match slice_from ll.lines self.scroll_pos.logical_line with
    | none => (head ++ [Event.EndAtomicUpdate], true)
    | some lines =>
      let r := draw_screen_outer self.screen_size.num_lines self.scroll_pos.screen_line
                 lines 0 0
      (head ++ r.1 ++ [Event.EndAtomicUpdate], r.2)
  | _, _, _ =>
    (head ++ [Event.Println "Calculating diff, please wait...", Event.EndAtomicUpdate], false)

/-- The method `Handler.draw_screen`. -/
def draw_screen (self : Handler) : Handler × Ret :=
  let r := draw_screen_ops self
  ({ self with events := self.events ++ r.1 }, if r.2 then Ret.panic else Ret.ok)

/-- The method `Handler.render_diff`. -/
def render_diff (env : Env) (self : Handler) : Handler × Ret :=
  let r := env.render self.collection self.diff_map self.screen_size.columns
  let self := { self with
    logical_lines := r.1,
    events := self.events ++
      [Event.render self.collection self.diff_map self.screen_size.columns] }
  match r.2 with
  | some e => (self, Ret.err e)
  | none => (self, Ret.ok)

/-- The callback `generate_diff` passes to `Collection.Apply`; its captured variable
is `jobs`. -/
def generate_diff_callback (env : Env) (jobs : List diff_job)
    (path typ changed_path : String) : List diff_job × Option GoError :=
  if typ = "diff" then
    if env.is_path_text path && env.is_path_text changed_path then
      (jobs ++ [diff_job.mk path changed_path], none)
    else (jobs, none)
  else (jobs, none)

/-- The method `Handler.generate_diff`; the call of `Apply` on a nil collection is a
panic. -/
def generate_diff (env : Env) (self : Handler) : Handler × Ret :=
  let self := { self with diff_map := none }
  match self.collection with
  | none => (self, Ret.panic)
  | some c =>
    let jobs := (Collection.Apply (generate_diff_callback env) c.entries []).1
    ({ self with events := self.events ++ [Event.go_diff jobs self.current_context_count] },
      Ret.ok)

/-- The method `Handler.handle_async_result`. -/
def handle_async_result (env : Env) (self : Handler) (r : AsyncResult) : Handler × Ret :=
  match r.rtype with
  | ResultType.COLLECTION =>
    let self := { self with collection := r.collection }
    generate_diff env self
  | ResultType.DIFF =>
    let self := { self with diff_map := r.diff_map }
    match calculate_statistics self with
    | none => (self, Ret.panic)
    | some self =>
      match render_diff env self with
      | (self, Ret.ok) =>
        let self := { self with scroll_pos := ScrollPos.mk 0 0 }
        draw_screen self
      | (self, ret) => (self, ret)
  | ResultType.HIGHLIGHT => (self, Ret.ok)

/-- The loop of `on_wakeup` over the envelopes waiting in the channel. -/
def on_wakeup_loop (env : Env) : List AsyncResult → Handler → Handler × Ret
  | [], self => (self, Ret.ok)
  | r :: rest, self =>
    let self := { self with async_results := rest }
    match r.err with
    | some e => (self, Ret.err e)
    | none =>
      match handle_async_result env self r with
      | (self, Ret.ok) => on_wakeup_loop env rest self
      | (self, ret) => (self, ret)

/-- The method `Handler.on_wakeup`. -/
def on_wakeup (env : Env) (self : Handler) : Handler × Ret :=
  on_wakeup_loop env self.async_results self

/-- The method `Handler.on_resize`. -/
def on_resize (env : Env) (self : Handler) (_old_size new_size : ScreenSize) :
    Handler × Ret :=
  let rows := to_int new_size.HeightCells
  let self := { self with screen_size :=
    { rows := rows, num_lines := wrap64 (rows - 1), columns := to_int new_size.WidthCells } }
  if self.diff_map ≠ none ∧ self.collection ≠ none then
    match render_diff env self with
    | (self, Ret.ok) => draw_screen self
    | (self, ret) => (self, ret)
  else
    draw_screen self

/-- The method `Handler.initialize` (the name is reserved in Lean). -/
def initialize_handler (env : Env) (self : Handler) : Handler × Ret :=
  let ctx := if env.opts_Context < 0 then to_int env.conf_Num_context_lines
             else env.opts_Context
  let rows := to_int env.lp_ScreenSize.HeightCells
  let colors :=
    [Event.SetDefaultColor DefaultColor.FOREGROUND env.conf_Foreground,
     Event.SetDefaultColor DefaultColor.CURSOR env.conf_Foreground,
     Event.SetDefaultColor DefaultColor.BACKGROUND env.conf_Background,
     Event.SetDefaultColor DefaultColor.SELECTION_BG env.conf_Select_bg] ++
    (match env.conf_Select_fg with
     | some c => [Event.SetDefaultColor DefaultColor.SELECTION_FG c]
     | none => [])
  let self := { self with
    current_context_count := ctx,
    original_context_count := ctx,
    screen_size :=
      { rows := rows, columns := to_int env.lp_ScreenSize.WidthCells,
        num_lines := wrap64 (rows - 1) },
    async_results := [],
    events := self.events ++ colors ++ [Event.go_create_collection self.left self.right] }
  draw_screen self

/-- A worker goroutine finishing: it sends its envelope on the channel. -/
def worker_push (self : Handler) (r : AsyncResult) : Handler :=
  { self with async_results := self.async_results ++ [r] }

/-! ## Notions the specification is stated in -/

/-- The lines of text a sequence of events puts on screen rows, in order: the text of a
`Println`, and the text of a `QueueWriteString` that is followed by the cursor's move
to the next row. -/
def written_lines : List Event → List String
  | [] => []
  | Event.Println s :: rest => s :: written_lines rest
  | Event.QueueWriteString s :: Event.MoveCursorVertically amt :: rest =>
    s :: written_lines (Event.MoveCursorVertically amt :: rest)
  | _ :: rest => written_lines rest

/-- Number of screen rows a sequence of events writes. -/
def rows_written (evs : List Event) : Nat := (written_lines evs).length

/-- The window of the specification: the screen lines of logical line `logical_line`
without its first `screen_line` ones, followed by all screen lines of every later
logical line. -/
def window_lines (lines : List LogicalLine) (logical_line screen_line : Nat) : List String :=
  ((lines.get? logical_line).map (fun l => l.screen_lines.drop screen_line)).getD [] ++
    (lines.drop (logical_line + 1)).flatMap (fun l => l.screen_lines)

/-- The job list of the specification: the pairs `(path, changed_path)` of the changed
entries whose two sides are text, in enumeration order.  A changed entry is one that
`Collection.Apply` presents with the type `diff`, the type that comes with a
`changed_path`. -/
def text_diff_jobs (env : Env) (entries : List CollectionEntry) : List diff_job :=
  (entries.filter
    (fun e => decide (e.typ = "diff") && env.is_path_text e.path &&
      env.is_path_text e.changed_path)).map
    (fun e => diff_job.mk e.path e.changed_path)

/-- The handler with the screen size `on_resize` stores for `new_size`. -/
def with_screen_size (self : Handler) (new_size : ScreenSize) : Handler :=
  { self with screen_size :=
    { rows := to_int new_size.HeightCells,
      num_lines := wrap64 (to_int new_size.HeightCells - 1),
      columns := to_int new_size.WidthCells } }

/-- The events that start a goroutine. -/
def Event.is_job : Event → Bool
  | Event.go_create_collection _ _ => true
  | Event.go_diff _ _ => true
  | _ => false

/-- Handling every envelope of a list once, oldest first, as long as none fails:
`none` as soon as an envelope carries an error or its handling does not return nil. -/
def handle_each (env : Env) : List AsyncResult → Handler → Option Handler
  | [], self => some self
  | r :: rest, self =>
    match r.err with
    | some _ => none
    | none =>
      match handle_async_result env self r with
      | (self, Ret.ok) => handle_each env rest self
      | _ => none

/-- The states the handler can be in: it starts with `initialize` on a handler whose
scroll position is the zero value, and then the main thread runs `on_wakeup` and
`on_resize` and workers send envelopes, in any order and with any collaborators. -/
inductive Reachable : Handler → Prop
| init (env : Env) (h0 : Handler) (hz : h0.scroll_pos = ScrollPos.mk 0 0) :
    Reachable (initialize_handler env h0).1
| wakeup (env : Env) (h : Handler) (hr : Reachable h) : Reachable (on_wakeup env h).1
| resize (env : Env) (h : Handler) (old_size new_size : ScreenSize) (hr : Reachable h) :
    Reachable (on_resize env h old_size new_size).1
| push (h : Handler) (r : AsyncResult) (hr : Reachable h) : Reachable (worker_push h r)

/-- The scroll position indexes the logical lines: when there are any, `logical_line`
is the index of one of them and `screen_line` is at most its number of screen lines. -/
def scroll_pos_in_bounds (self : Handler) : Prop :=
  ∀ ll, self.logical_lines = some ll → ll.lines ≠ [] →
    0 ≤ self.scroll_pos.logical_line ∧
    ∃ line, ll.lines.get? self.scroll_pos.logical_line.toNat = some line ∧
      0 ≤ self.scroll_pos.screen_line ∧
      self.scroll_pos.screen_line ≤ (line.screen_lines.length : Int)

/-! ## Concrete data for the examples -/

/-- A freshly constructed handler: every field but the two roots is Go's zero value. -/
def Handler.zero_value (left right : String) : Handler :=
  { async_results := [], left := left, right := right, collection := none,
    diff_map := none, logical_lines := none, current_context_count := 0,
    original_context_count := 0, added_count := 0, removed_count := 0,
    screen_size := { rows := 0, columns := 0, num_lines := 0 },
    scroll_pos := { logical_line := 0, screen_line := 0 }, events := [] }

/-- An environment with a 24x80 terminal, in which everything but `img.png` is text and
`render` returns the given result whatever it is given. -/
def example_env (render_result : Option LogicalLines × Option GoError) : Env :=
  { opts_Context := -1, conf_Num_context_lines := 3, conf_Foreground := 0,
    conf_Background := 1, conf_Select_bg := 2, conf_Select_fg := none,
    lp_ScreenSize := { WidthCells := 80, HeightCells := 24 },
    is_path_text := fun p => decide (p ≠ "img.png"),
    render := fun _ _ _ => render_result }

/-- The logical lines of the specification's windowing example: `L0` with two screen
lines and `L1` with three. -/
def example_lines : LogicalLines :=
  { lines := [ { screen_lines := ["L0.line0", "L0.line1"] },
               { screen_lines := ["L1.line0", "L1.line1", "L1.line2"] } ] }

/-- The collection of the specification's statistics example, with four entries. -/
def example_collection : Collection :=
  { added_count := 2, removed_count := 1,
    entries := [ { path := "a.txt", typ := "diff", changed_path := "b.txt" },
                 { path := "c.txt", typ := "add", changed_path := "" },
                 { path := "img.png", typ := "diff", changed_path := "img2.png" },
                 { path := "d.txt", typ := "diff", changed_path := "e.txt" } ] }

/-- The diff map of the specification's statistics example. -/
def example_diff_map : DiffMap :=
  [("a.txt", { added_count := 3, removed_count := 0 }),
   ("d.txt", { added_count := 0, removed_count := 4 })]

/-- A handler showing `example_lines` on a terminal of `rows` rows and 80 columns,
scrolled to `pos`. -/
def example_handler (rows : Int) (pos : ScrollPos) : Handler :=
  { Handler.zero_value "left" "right" with
    collection := some example_collection, diff_map := some example_diff_map,
    logical_lines := some example_lines,
    screen_size := { rows := rows, columns := 80, num_lines := rows - 1 },
    scroll_pos := pos }

/-- A collection with one added entry and one changed entry, all text. -/
def tagged_collection : Collection :=
  { added_count := 0, removed_count := 0,
    entries := [ { path := "a.txt", typ := "add", changed_path := "" },
                 { path := "c.txt", typ := "diff", changed_path := "d.txt" } ] }

/-- The envelope a collection worker sends. -/
def collection_envelope (c : Collection) : AsyncResult :=
  { err := none, rtype := ResultType.COLLECTION, collection := some c, diff_map := none }

/-- The envelope a diff worker sends. -/
def diff_envelope (dm : DiffMap) : AsyncResult :=
  { err := none, rtype := ResultType.DIFF, collection := none, diff_map := some dm }

/-- The envelope of a worker that failed with `e`. -/
def error_envelope (rtype : ResultType) (e : GoError) : AsyncResult :=
  { err := some e, rtype := rtype, collection := none, diff_map := none }

/-- The handler after a whole session: `initialize`, the collection worker's envelope,
a wakeup, the diff worker's envelope, a wakeup; the layout returns `example_lines`. -/
def example_session : Handler :=
  (on_wakeup (example_env (some example_lines, none))
    (worker_push
      (on_wakeup (example_env (some example_lines, none))
        (worker_push
          (initialize_handler (example_env (some example_lines, none))
            (Handler.zero_value "left" "right")).1
          (collection_envelope example_collection))).1
      (diff_envelope example_diff_map))).1

/-! ## `draw_screen`: the shape of what it emits -/

theorem draw_screen_inner_eq (nl : Int) (xs : List String) :
    ∀ nw : Int, nw < nl →
      draw_screen_inner nl xs nw =
        ((xs.take (nl - nw).toNat).flatMap write_screen_line,
          nw + ((xs.take (nl - nw).toNat).length : Int)) := by
  induction xs with
  | nil => intro nw _; simp [draw_screen_inner]
  | cons sl rest ih =>
    intro nw hlt
    obtain ⟨k, hk⟩ : ∃ k : Nat, (nl - nw).toNat = k + 1 := ⟨(nl - nw).toNat - 1, by omega⟩
    unfold draw_screen_inner
    by_cases hge : nw + 1 ≥ nl
    · have hk0 : k = 0 := by omega
      subst hk0
      simp [hge, hk]
    · have hlt2 : nw + 1 < nl := by omega
      have hk2 : (nl - (nw + 1)).toNat = k := by omega
      simp only [hge, if_false, ih (nw + 1) hlt2, hk2, hk, List.take_succ_cons,
        List.flatMap_cons, List.length_cons]
      refine Prod.ext rfl ?_
      simp only [Nat.cast_add, Nat.cast_one]
      omega

theorem draw_screen_outer_shape (nl sl : Int) (lines : List LogicalLine) :
    ∀ (i : Nat) (nw : Int), ∃ rows : List String,
      (draw_screen_outer nl sl lines i nw).1 = rows.flatMap write_screen_line ∧
        rows.length ≤ (nl - nw).toNat := by
  induction lines with
  | nil => intro i nw; exact ⟨[], by simp [draw_screen_outer]⟩
  | cons line rest ih =>
    intro i nw
    unfold draw_screen_outer
    by_cases hge : nw ≥ nl
    · exact ⟨[], by simp [hge]⟩
    · have hlt : nw < nl := by omega
      simp only [hge, if_false]
      cases hs : (if i = 0 then slice_from line.screen_lines sl else some line.screen_lines) with
      | none => exact ⟨[], by simp⟩
      | some sls =>
        simp only [draw_screen_inner_eq nl sls nw hlt]
        obtain ⟨rows2, h2, hlen2⟩ :=
          ih (i + 1) (nw + ((sls.take (nl - nw).toNat).length : Int))
        refine ⟨sls.take (nl - nw).toNat ++ rows2, ?_, ?_⟩
        · show _ = (sls.take (nl - nw).toNat ++ rows2).flatMap write_screen_line
          rw [List.flatMap_append, ← h2]
        · have := List.length_take_le (nl - nw).toNat sls
          simp only [List.length_append]
          omega

theorem draw_screen_outer_succ (nl sl : Int) (lines : List LogicalLine) :
    ∀ (i : Nat) (nw : Int),
      draw_screen_outer nl sl lines (i + 1) nw =
        (((lines.flatMap (fun l => l.screen_lines)).take (nl - nw).toNat).flatMap
          write_screen_line, false) := by
  induction lines with
  | nil => intro i nw; simp [draw_screen_outer]
  | cons line rest ih =>
    intro i nw
    unfold draw_screen_outer
    by_cases hge : nw ≥ nl
    · have h0 : (nl - nw).toNat = 0 := by omega
      simp [hge, h0]
    · have hlt : nw < nl := by omega
      simp only [hge, if_false, Nat.add_one_ne_zero, draw_screen_inner_eq nl _ nw hlt, ih,
        List.flatMap_cons, List.take_append_eq_append_take, List.flatMap_append]
      have hk : (nl - (nw + ((line.screen_lines.take (nl - nw).toNat).length : Int))).toNat =
          (nl - nw).toNat - line.screen_lines.length := by
        simp only [List.length_take]
        omega
      rw [hk]

theorem draw_screen_outer_zero (nl sl : Int) (line : LogicalLine) (rest : List LogicalLine)
    (nw : Int) (h0 : 0 ≤ sl) (h1 : sl ≤ (line.screen_lines.length : Int)) :
    draw_screen_outer nl sl (line :: rest) 0 nw =
      (((line.screen_lines.drop sl.toNat ++ rest.flatMap (fun l => l.screen_lines)).take
          (nl - nw).toNat).flatMap write_screen_line, false) := by
  unfold draw_screen_outer
  by_cases hge : nw ≥ nl
  · have hz : (nl - nw).toNat = 0 := by omega
    simp [hge, hz]
  · have hlt : nw < nl := by omega
    have hs : slice_from line.screen_lines sl = some (line.screen_lines.drop sl.toNat) := by
      simp [slice_from, h0, h1]
    simp only [hge, if_false, if_true, hs, draw_screen_inner_eq nl _ nw hlt,
      draw_screen_outer_succ, List.take_append_eq_append_take, List.flatMap_append]
    have hk : (nl - (nw + (((line.screen_lines.drop sl.toNat).take (nl - nw).toNat).length
        : Int))).toNat = (nl - nw).toNat - (line.screen_lines.drop sl.toNat).length := by
      simp only [List.length_take]
      omega
    rw [hk]

theorem written_lines_write (sl : String) (tail : List Event)
    (ht : ∀ amt rest, tail ≠ Event.MoveCursorVertically amt :: rest) :
    written_lines (write_screen_line sl ++ tail) = sl :: written_lines tail := by
  cases tail with
  | nil => rfl
  | cons e t =>
    cases e with
    | MoveCursorVertically amt => exact absurd rfl (ht amt t)
    | _ => rfl

theorem written_lines_rows (rows : List String) (tail : List Event)
    (ht : ∀ amt rest, tail ≠ Event.MoveCursorVertically amt :: rest) :
    written_lines (rows.flatMap write_screen_line ++ tail) = rows ++ written_lines tail := by
  induction rows with
  | nil => simp
  | cons sl rest ih =>
    rw [List.flatMap_cons, List.append_assoc, written_lines_write, ih, List.cons_append]
    intro amt t
    cases rest with
    | nil => simpa using ht amt t
    | cons sl2 rest2 => simp [List.flatMap_cons, write_screen_line]

theorem written_lines_draw (rows : List String) :
    written_lines ([Event.StartAtomicUpdate, Event.GraphicsDeleteVisible,
      Event.MoveCursorTo 1 1, Event.ClearToEndOfScreen] ++
        rows.flatMap write_screen_line ++ [Event.EndAtomicUpdate]) = rows := by
  have h := written_lines_rows rows [Event.EndAtomicUpdate] (by simp)
  simp only [List.cons_append, List.nil_append, written_lines, List.append_assoc]
  simpa [written_lines] using h

/-! ## C1: the rows one call of `draw_screen` writes -/

/-- C1, as amended.  On a screen whose size was set from a terminal with `rows ≥ 1`
(so `num_lines = rows - 1`): when `logical_lines`, `diff_map` and `collection` are all
present, one call of `draw_screen` writes at most `num_lines` rows, whatever the scroll
position and the content are; when one of them is absent it writes exactly one row, the
placeholder, whatever `num_lines` is. -/
theorem draw_screen_rows_bound (h : Handler) (hrows : 1 ≤ h.screen_size.rows)
    (hnl : h.screen_size.num_lines = h.screen_size.rows - 1) :
    ((h.logical_lines ≠ none ∧ h.diff_map ≠ none ∧ h.collection ≠ none) →
      (rows_written (draw_screen_ops h).1 : Int) ≤ h.screen_size.num_lines) ∧
    ((h.logical_lines = none ∨ h.diff_map = none ∨ h.collection = none) →
      written_lines (draw_screen_ops h).1 = ["Calculating diff, please wait..."] ∧
        rows_written (draw_screen_ops h).1 = 1) := by
  constructor
  · rintro ⟨hll, hdm, hc⟩
    obtain ⟨ll, hll⟩ := Option.ne_none_iff_exists'.mp hll
    obtain ⟨dm, hdm⟩ := Option.ne_none_iff_exists'.mp hdm
    obtain ⟨c, hc⟩ := Option.ne_none_iff_exists'.mp hc
    unfold rows_written draw_screen_ops
    simp only [hll, hdm, hc]
    cases hs : slice_from ll.lines h.scroll_pos.logical_line with
    | none =>
      have := written_lines_draw []
      simp only [List.flatMap_nil, List.append_nil] at this
      simp only [this, List.length_nil]
      omega
    | some lines =>
      obtain ⟨rows, hr, hlen⟩ := draw_screen_outer_shape h.screen_size.num_lines
        h.scroll_pos.screen_line lines 0 0
      simp only [hr, written_lines_draw]
      omega
  · intro habs
    have hops : (draw_screen_ops h).1 =
        [Event.StartAtomicUpdate, Event.GraphicsDeleteVisible, Event.MoveCursorTo 1 1,
          Event.ClearToEndOfScreen, Event.Println "Calculating diff, please wait...",
          Event.EndAtomicUpdate] := by
      unfold draw_screen_ops
      rcases habs with h1 | h1 | h1
      · simp [h1]
      · cases h.logical_lines <;> simp [h1]
      · cases h.logical_lines <;> cases h.diff_map <;> simp [h1]
    unfold rows_written
    rw [hops]
    exact ⟨rfl, rfl⟩

/-- C1, witness: the specification's example on a terminal of four rows writes at most
three rows. -/
theorem draw_screen_rows_bound_witness :
    (rows_written (draw_screen_ops (example_handler 4 (ScrollPos.mk 0 1))).1 : Int) ≤
      (example_handler 4 (ScrollPos.mk 0 1)).screen_size.num_lines :=
  (draw_screen_rows_bound (example_handler 4 (ScrollPos.mk 0 1)) (by decide) (by decide)).1
    (by decide)

/-- C1, as stated, fails: after a resize to a terminal of one row (`num_lines = 0`)
with nothing computed yet, `draw_screen` writes the placeholder, one row. -/
theorem draw_screen_rows_bound_fails :
    1 ≤ (on_resize (example_env (none, none)) (Handler.zero_value "left" "right")
          (ScreenSize.mk 80 24) (ScreenSize.mk 80 1)).1.screen_size.rows ∧
    (on_resize (example_env (none, none)) (Handler.zero_value "left" "right")
          (ScreenSize.mk 80 24) (ScreenSize.mk 80 1)).1.screen_size.num_lines = 0 ∧
    rows_written (draw_screen_ops (on_resize (example_env (none, none))
          (Handler.zero_value "left" "right") (ScreenSize.mk 80 24)
          (ScreenSize.mk 80 1)).1).1 = 1 ∧
    ¬ ((rows_written (draw_screen_ops (on_resize (example_env (none, none))
          (Handler.zero_value "left" "right") (ScreenSize.mk 80 24)
          (ScreenSize.mk 80 1)).1).1 : Int) ≤
        (on_resize (example_env (none, none)) (Handler.zero_value "left" "right")
          (ScreenSize.mk 80 24) (ScreenSize.mk 80 1)).1.screen_size.num_lines) := by
  decide

/-! ## C2: the window `draw_screen` shows -/

/-- C2.  When `logical_lines`, `diff_map` and `collection` are present and the scroll
position is an index into the lines (`0 ≤ logical_line ≤ len(lines)`, and
`0 ≤ screen_line ≤` the number of screen lines of the logical line at `logical_line`
when there is one), `draw_screen` does not panic and the screen lines it writes are the
first `num_lines` elements of the window: the screen lines of that logical line without
its first `screen_line` ones, followed by the screen lines of all later logical lines. -/
theorem draw_screen_window (h : Handler) (ll : LogicalLines) (dm : DiffMap) (c : Collection)
    (hll : h.logical_lines = some ll) (hdm : h.diff_map = some dm)
    (hc : h.collection = some c)
    (hl0 : 0 ≤ h.scroll_pos.logical_line)
    (hl1 : h.scroll_pos.logical_line ≤ (ll.lines.length : Int))
    (hs : ∀ line, ll.lines.get? h.scroll_pos.logical_line.toNat = some line →
      0 ≤ h.scroll_pos.screen_line ∧
        h.scroll_pos.screen_line ≤ (line.screen_lines.length : Int)) :
    (draw_screen h).2 = Ret.ok ∧
    written_lines (draw_screen_ops h).1 =
      (window_lines ll.lines h.scroll_pos.logical_line.toNat
        h.scroll_pos.screen_line.toNat).take h.screen_size.num_lines.toNat := by
  have hsl : slice_from ll.lines h.scroll_pos.logical_line =
      some (ll.lines.drop h.scroll_pos.logical_line.toNat) := by
    simp [slice_from, hl0, hl1]
  unfold draw_screen draw_screen_ops window_lines
  simp only [hll, hdm, hc, hsl]
  cases hd : ll.lines.drop h.scroll_pos.logical_line.toNat with
  | nil =>
    have hlen : ll.lines.length ≤ h.scroll_pos.logical_line.toNat := by
      simpa using hd
    have hget : ll.lines.get? h.scroll_pos.logical_line.toNat = none := by
      simp [hlen]
    have hd2 : ll.lines.drop (h.scroll_pos.logical_line.toNat + 1) = [] := by
      simp; omega
    simp only [draw_screen_outer, hget, hd2, Option.map_none', Option.getD_none,
      List.flatMap_nil, List.append_nil, List.take_nil]
    exact ⟨by simp, rfl⟩
  | cons line rest =>
    have hn : h.scroll_pos.logical_line.toNat < ll.lines.length := by
      by_contra hcon
      have : ll.lines.drop h.scroll_pos.logical_line.toNat = [] := by
        simp; omega
      rw [this] at hd
      cases hd
    have hget : ll.lines.get? h.scroll_pos.logical_line.toNat = some line := by
      have := List.drop_eq_getElem_cons hn
      rw [hd] at this
      have h1 := (List.cons.inj this).1
      simp [List.getElem?_eq_getElem hn, h1]
    have hd2 : ll.lines.drop (h.scroll_pos.logical_line.toNat + 1) = rest := by
      have := List.drop_eq_getElem_cons hn
      rw [hd] at this
      exact ((List.cons.inj this).2).symm
    obtain ⟨hs0, hs1⟩ := hs line hget
    rw [draw_screen_outer_zero _ _ _ _ _ hs0 hs1]
    simp only [hget, hd2, Option.map_some', Option.getD_some, written_lines_draw, sub_zero]
    simp

/-- C2, witness: the specification's example.  Lines `L0` (two screen lines) and `L1`
(three), `num_lines = 3`, scrolled to `{0, 1}`: the rows are `L0.line1`, `L1.line0`,
`L1.line1`. -/
theorem draw_screen_window_witness :
    (draw_screen (example_handler 4 (ScrollPos.mk 0 1))).2 = Ret.ok ∧
    written_lines (draw_screen_ops (example_handler 4 (ScrollPos.mk 0 1))).1 =
      ["L0.line1", "L1.line0", "L1.line1"] :=
  draw_screen_window (example_handler 4 (ScrollPos.mk 0 1)) example_lines example_diff_map
    example_collection rfl rfl rfl (by decide) (by decide) (by decide)

/-! ## C4: the statistics -/

theorem wrap64_add_left (a b : Int) : wrap64 (wrap64 a + b) = wrap64 (a + b) := by
  unfold wrap64; omega

theorem wrap64_of_int_ok (a : Int) (h : int_ok a) : wrap64 a = a := by
  unfold int_ok at h; unfold wrap64; omega

theorem calculate_statistics_loop_eq (dm : DiffMap) :
    ∀ a r : Int, dm ≠ [] →
      calculate_statistics_loop dm (a, r) =
        (wrap64 (a + (dm.map (fun e => e.2.added_count)).sum),
         wrap64 (r + (dm.map (fun e => e.2.removed_count)).sum)) := by
  induction dm with
  | nil => intro a r h; exact absurd rfl h
  | cons e rest ih =>
    intro a r _
    obtain ⟨k, patch⟩ := e
    unfold calculate_statistics_loop
    by_cases hr : rest = []
    · subst hr; simp [calculate_statistics_loop]
    · rw [ih _ _ hr, wrap64_add_left, wrap64_add_left]
      simp [add_assoc]

theorem calculate_statistics_loop_ok (dm : DiffMap) (a r : Int) (ha : int_ok a)
    (hr : int_ok r) :
    calculate_statistics_loop dm (a, r) =
      (wrap64 (a + (dm.map (fun e => e.2.added_count)).sum),
       wrap64 (r + (dm.map (fun e => e.2.removed_count)).sum)) := by
  by_cases h : dm = []
  · subst h; simp [calculate_statistics_loop, wrap64_of_int_ok, ha, hr]
  · exact calculate_statistics_loop_eq dm a r h

theorem render_diff_ok (env : Env) (h : Handler)
    (hr : (env.render h.collection h.diff_map h.screen_size.columns).2 = none) :
    render_diff env h =
      ({ h with
          logical_lines := (env.render h.collection h.diff_map h.screen_size.columns).1,
          events := h.events ++
            [Event.render h.collection h.diff_map h.screen_size.columns] }, Ret.ok) := by
  unfold render_diff
  simp only [hr]

theorem render_diff_err (env : Env) (h : Handler) (e : GoError)
    (hr : (env.render h.collection h.diff_map h.screen_size.columns).2 = some e) :
    render_diff env h =
      ({ h with
          logical_lines := (env.render h.collection h.diff_map h.screen_size.columns).1,
          events := h.events ++
            [Event.render h.collection h.diff_map h.screen_size.columns] }, Ret.err e) := by
  unfold render_diff
  simp only [hr]

theorem handle_diff_counts (env : Env) (h h1 : Handler) (r : AsyncResult)
    (hrt : r.rtype = ResultType.DIFF)
    (hcs : calculate_statistics { h with diff_map := r.diff_map } = some h1) :
    (handle_async_result env h r).1.added_count = h1.added_count ∧
      (handle_async_result env h r).1.removed_count = h1.removed_count := by
  unfold handle_async_result
  simp only [hrt, hcs]
  cases hr : (env.render h1.collection h1.diff_map h1.screen_size.columns).2 with
  | none => rw [render_diff_ok env h1 hr]; exact ⟨rfl, rfl⟩
  | some e => rw [render_diff_err env h1 e hr]; exact ⟨rfl, rfl⟩

/-- C4.  With a Collection `c` installed and a diff map whose entries are `dm`, in
whatever order `order` the map is iterated, `calculate_statistics` (and so the handling
of a DIFF envelope carrying that map) leaves `added_count` equal to `c.added_count` plus
the sum of `added_count` over the patches, and `removed_count` likewise: as Go `int`
sums (`wrap64`), hence exactly whenever the total is an `int`. -/
theorem calculate_statistics_totals (env : Env) (h : Handler) (c : Collection)
    (dm order : DiffMap) (r : AsyncResult)
    (hc : h.collection = some c) (hperm : order.Perm dm)
    (hca : int_ok c.added_count) (hcr : int_ok c.removed_count)
    (hrt : r.rtype = ResultType.DIFF) (hrd : r.diff_map = some order) :
    ∃ h1, calculate_statistics { h with diff_map := some order } = some h1 ∧
      h1.added_count = wrap64 (c.added_count + (dm.map (fun e => e.2.added_count)).sum) ∧
      h1.removed_count =
        wrap64 (c.removed_count + (dm.map (fun e => e.2.removed_count)).sum) ∧
      (int_ok (c.added_count + (dm.map (fun e => e.2.added_count)).sum) →
        h1.added_count = c.added_count + (dm.map (fun e => e.2.added_count)).sum) ∧
      (int_ok (c.removed_count + (dm.map (fun e => e.2.removed_count)).sum) →
        h1.removed_count = c.removed_count + (dm.map (fun e => e.2.removed_count)).sum) ∧
      (handle_async_result env h r).1.added_count = h1.added_count ∧
      (handle_async_result env h r).1.removed_count = h1.removed_count := by
  have hsa : (order.map (fun e => e.2.added_count)).sum =
      (dm.map (fun e => e.2.added_count)).sum := (hperm.map _).sum_eq
  have hsr : (order.map (fun e => e.2.removed_count)).sum =
      (dm.map (fun e => e.2.removed_count)).sum := (hperm.map _).sum_eq
  have hcs : calculate_statistics { h with diff_map := some order } =
      some { h with
        diff_map := some order,
        added_count := wrap64 (c.added_count + (dm.map (fun e => e.2.added_count)).sum),
        removed_count :=
          wrap64 (c.removed_count + (dm.map (fun e => e.2.removed_count)).sum) } := by
    unfold calculate_statistics
    simp only [hc, Option.getD_some, calculate_statistics_loop_ok order _ _ hca hcr, hsa, hsr]
  refine ⟨_, hcs, rfl, rfl, fun hok => wrap64_of_int_ok _ hok,
    fun hok => wrap64_of_int_ok _ hok, ?_⟩
  exact handle_diff_counts env h _ r hrt (by rw [hrd]; exact hcs)

/-- C4, witness: the specification's example.  Collection `{added 2, removed 1}` with
patches `{3, 0}` and `{0, 4}`, iterated in the other order, gives
`{added 5, removed 5}`. -/
theorem calculate_statistics_totals_witness :
    ∃ h1, calculate_statistics
        { example_handler 4 (ScrollPos.mk 0 0) with
          diff_map := some example_diff_map.reverse } = some h1 ∧
      h1.added_count = 5 ∧ h1.removed_count = 5 := by
  obtain ⟨h1, hcs, _, _, ha, hr, _⟩ :=
    calculate_statistics_totals (example_env (some example_lines, none))
      (example_handler 4 (ScrollPos.mk 0 0)) example_collection example_diff_map
      example_diff_map.reverse (diff_envelope example_diff_map.reverse) rfl
      (List.reverse_perm _) (by decide) (by decide) rfl rfl
  exact ⟨h1, hcs, ha (by decide), hr (by decide)⟩

/-! ## C7: what a COLLECTION envelope starts -/

theorem apply_generate_diff_callback (env : Env) (entries : List CollectionEntry) :
    ∀ jobs : List diff_job,
      Collection.Apply (generate_diff_callback env) entries jobs =
        (jobs ++ text_diff_jobs env entries, none) := by
  induction entries with
  | nil => intro jobs; simp [Collection.Apply, text_diff_jobs]
  | cons e rest ih =>
    intro jobs
    rw [Collection.Apply]
    by_cases ht : e.typ = "diff"
    · by_cases hx : (env.is_path_text e.path && env.is_path_text e.changed_path) = true
      · have hcb : generate_diff_callback env jobs e.path e.typ e.changed_path =
            (jobs ++ [diff_job.mk e.path e.changed_path], none) := by
          simp only [generate_diff_callback, ht, hx, if_true]
        rw [hcb]
        simp only [ih]
        simp [text_diff_jobs, List.filter_cons, ht, hx, Bool.and_assoc]
      · have hcb : generate_diff_callback env jobs e.path e.typ e.changed_path =
            (jobs, none) := by
          simp only [generate_diff_callback, ht, hx, if_true]
          simp
        rw [hcb]
        simp only [ih]
        simp only [Bool.not_eq_true] at hx
        simp [text_diff_jobs, List.filter_cons, ht, hx, Bool.and_assoc]
    · have hcb : generate_diff_callback env jobs e.path e.typ e.changed_path =
          (jobs, none) := by
        simp only [generate_diff_callback, ht, if_false]
      rw [hcb]
      simp only [ih]
      simp [text_diff_jobs, List.filter_cons, ht]

theorem mem_text_diff_jobs (env : Env) (entries : List CollectionEntry) (j : diff_job) :
    j ∈ text_diff_jobs env entries ↔
      ∃ e ∈ entries, e.typ = "diff" ∧ env.is_path_text e.path = true ∧
        env.is_path_text e.changed_path = true ∧ j = diff_job.mk e.path e.changed_path := by
  unfold text_diff_jobs
  simp only [List.mem_map, List.mem_filter, Bool.and_eq_true, decide_eq_true_eq]
  constructor
  · rintro ⟨e, ⟨he, ⟨ht, hp⟩, hc⟩, rfl⟩
    exact ⟨e, he, ht, hp, hc, rfl⟩
  · rintro ⟨e, he, ht, hp, hc, rfl⟩
    exact ⟨e, ⟨he, ⟨ht, hp⟩, hc⟩, rfl⟩

/-- C7.  Handling a COLLECTION envelope that carries a Collection `c` installs `c`,
clears the diff map, returns no error, and starts exactly one diff computation and
nothing else; its job list is, in the Collection's enumeration order, the pairs
`(path, changed_path)` of the changed entries (type `diff`) whose `path` and
`changed_path` are both text, and its context-line argument is the current context-line
count.  A job is in the list only for such an entry: no entry of another type and no
entry with a non-text side gives one. -/
theorem handle_collection_submits (env : Env) (h : Handler) (r : AsyncResult)
    (c : Collection) (hrt : r.rtype = ResultType.COLLECTION)
    (hrc : r.collection = some c) :
    handle_async_result env h r =
      ({ h with
          collection := some c, diff_map := none,
          events := h.events ++
            [Event.go_diff (text_diff_jobs env c.entries) h.current_context_count] },
        Ret.ok) ∧
    (∀ j, j ∈ text_diff_jobs env c.entries ↔
      ∃ e ∈ c.entries, e.typ = "diff" ∧ env.is_path_text e.path = true ∧
        env.is_path_text e.changed_path = true ∧
        j = diff_job.mk e.path e.changed_path) := by
  refine ⟨?_, mem_text_diff_jobs env c.entries⟩
  unfold handle_async_result generate_diff
  simp only [hrt, hrc, apply_generate_diff_callback, List.nil_append]

/-- C7, witness: the example collection has three changed entries, one of them an
image, and one added entry; the two text pairs are submitted, in order. -/
theorem handle_collection_submits_witness :
    (handle_async_result (example_env (none, none)) (Handler.zero_value "left" "right")
      (collection_envelope example_collection)).1.events =
      [Event.go_diff [diff_job.mk "a.txt" "b.txt", diff_job.mk "d.txt" "e.txt"] 0] := by
  rw [(handle_collection_submits (example_env (none, none))
    (Handler.zero_value "left" "right") (collection_envelope example_collection)
    example_collection rfl rfl).1]
  decide

/-! ## C3: the scroll position after a DIFF envelope -/

theorem calculate_statistics_of_collection (h : Handler) (c : Collection)
    (hc : h.collection = some c) :
    calculate_statistics h = some { h with
      added_count := (calculate_statistics_loop (h.diff_map.getD [])
        (c.added_count, c.removed_count)).1,
      removed_count := (calculate_statistics_loop (h.diff_map.getD [])
        (c.added_count, c.removed_count)).2 } := by
  unfold calculate_statistics
  simp only [hc]

theorem handle_diff_ok (env : Env) (h : Handler) (r : AsyncResult) (c : Collection)
    (hrt : r.rtype = ResultType.DIFF) (hc : h.collection = some c)
    (hr : (env.render (some c) r.diff_map h.screen_size.columns).2 = none) :
    handle_async_result env h r =
      draw_screen { h with
        diff_map := r.diff_map,
        added_count := (calculate_statistics_loop (r.diff_map.getD [])
          (c.added_count, c.removed_count)).1,
        removed_count := (calculate_statistics_loop (r.diff_map.getD [])
          (c.added_count, c.removed_count)).2,
        logical_lines := (env.render (some c) r.diff_map h.screen_size.columns).1,
        events := h.events ++ [Event.render (some c) r.diff_map h.screen_size.columns],
        scroll_pos := ScrollPos.mk 0 0 } := by
  have hcs := calculate_statistics_of_collection { h with diff_map := r.diff_map } c hc
  unfold handle_async_result
  simp only [hrt, hcs]
  rw [render_diff_ok env _ (by simpa [hc] using hr)]
  simp only [hc]

theorem handle_diff_err (env : Env) (h : Handler) (r : AsyncResult) (c : Collection)
    (e : GoError) (hrt : r.rtype = ResultType.DIFF) (hc : h.collection = some c)
    (hr : (env.render (some c) r.diff_map h.screen_size.columns).2 = some e) :
    handle_async_result env h r =
      ({ h with
        diff_map := r.diff_map,
        added_count := (calculate_statistics_loop (r.diff_map.getD [])
          (c.added_count, c.removed_count)).1,
        removed_count := (calculate_statistics_loop (r.diff_map.getD [])
          (c.added_count, c.removed_count)).2,
        logical_lines := (env.render (some c) r.diff_map h.screen_size.columns).1,
        events := h.events ++ [Event.render (some c) r.diff_map h.screen_size.columns] },
        Ret.err e) := by
  have hcs := calculate_statistics_of_collection { h with diff_map := r.diff_map } c hc
  unfold handle_async_result
  simp only [hrt, hcs]
  rw [render_diff_err env _ e (by simpa [hc] using hr)]
  simp only [hc]

/-- C3, as amended.  For a handler with a Collection installed and a DIFF envelope:
after `handle_async_result` the envelope's diff map is installed, and if the layout step
returned no error the scroll position is `{0, 0}`, whatever it was before; if the layout
step returned an error, that error is returned and the scroll position is what it was
before. -/
theorem handle_diff_scroll_pos (env : Env) (h : Handler) (r : AsyncResult) (c : Collection)
    (hrt : r.rtype = ResultType.DIFF) (hc : h.collection = some c) :
    (handle_async_result env h r).1.diff_map = r.diff_map ∧
    ((env.render (some c) r.diff_map h.screen_size.columns).2 = none →
      (handle_async_result env h r).1.scroll_pos = ScrollPos.mk 0 0) ∧
    (∀ e, (env.render (some c) r.diff_map h.screen_size.columns).2 = some e →
      (handle_async_result env h r).2 = Ret.err e ∧
        (handle_async_result env h r).1.scroll_pos = h.scroll_pos) := by
  refine ⟨?_, ?_, ?_⟩
  · cases hr : (env.render (some c) r.diff_map h.screen_size.columns).2 with
    | none => rw [handle_diff_ok env h r c hrt hc hr]; rfl
    | some e => rw [handle_diff_err env h r c e hrt hc hr]
  · intro hr
    rw [handle_diff_ok env h r c hrt hc hr]
    rfl
  · intro e hr
    rw [handle_diff_err env h r c e hrt hc hr]
    exact ⟨rfl, rfl⟩

/-- C3, witness: with a layout that succeeds, a handler scrolled to `{1, 2}` is back at
`{0, 0}` after a DIFF envelope. -/
theorem handle_diff_scroll_pos_witness :
    (handle_async_result (example_env (some example_lines, none))
      (example_handler 4 (ScrollPos.mk 1 2)) (diff_envelope [])).1.scroll_pos =
      ScrollPos.mk 0 0 :=
  (handle_diff_scroll_pos (example_env (some example_lines, none))
    (example_handler 4 (ScrollPos.mk 1 2)) (diff_envelope []) example_collection
    rfl rfl).2.1 rfl

/-- C3, as stated, fails: when the layout step returns an error, the envelope's diff
map is installed and the scroll position stays `{1, 2}`; and without a Collection the
diff map is installed, the call panics and the scroll position stays as well. -/
theorem handle_diff_scroll_pos_fails :
    ((handle_async_result (example_env (none, some "layout failed"))
        (example_handler 4 (ScrollPos.mk 1 2)) (diff_envelope [])).1.diff_map = some [] ∧
      (handle_async_result (example_env (none, some "layout failed"))
        (example_handler 4 (ScrollPos.mk 1 2)) (diff_envelope [])).2 =
          Ret.err "layout failed" ∧
      (handle_async_result (example_env (none, some "layout failed"))
        (example_handler 4 (ScrollPos.mk 1 2)) (diff_envelope [])).1.scroll_pos ≠
          ScrollPos.mk 0 0) ∧
    ((handle_async_result (example_env (some example_lines, none))
        { Handler.zero_value "left" "right" with scroll_pos := ScrollPos.mk 1 2 }
        (diff_envelope [])).1.diff_map = some [] ∧
      (handle_async_result (example_env (some example_lines, none))
        { Handler.zero_value "left" "right" with scroll_pos := ScrollPos.mk 1 2 }
        (diff_envelope [])).2 = Ret.panic ∧
      (handle_async_result (example_env (some example_lines, none))
        { Handler.zero_value "left" "right" with scroll_pos := ScrollPos.mk 1 2 }
        (diff_envelope [])).1.scroll_pos ≠ ScrollPos.mk 0 0) := by
  decide

/-! ## C8: resize -/

theorem draw_screen_ops_no_job (h : Handler) :
    ∀ ev ∈ (draw_screen_ops h).1, ev.is_job = false := by
  have hrows : ∀ rows : List String, ∀ ev ∈ rows.flatMap write_screen_line,
      ev.is_job = false := by
    intro rows ev hev
    obtain ⟨sl, _, hsl⟩ := List.mem_flatMap.mp hev
    simp only [write_screen_line, List.mem_cons, List.mem_singleton, List.not_mem_nil,
      or_false] at hsl
    rcases hsl with rfl | rfl | rfl <;> rfl
  intro ev hev
  unfold draw_screen_ops at hev
  split at hev
  · split at hev
    · simp only [List.mem_append, List.mem_cons, List.mem_singleton, List.not_mem_nil,
        or_false] at hev
      rcases hev with (rfl | rfl | rfl | rfl) | rfl <;> rfl
    · rename_i lines _
      obtain ⟨rows, hr, _⟩ := draw_screen_outer_shape h.screen_size.num_lines
        h.scroll_pos.screen_line lines 0 0
      simp only [hr, List.mem_append, List.mem_cons, List.mem_singleton, List.not_mem_nil,
        or_false] at hev
      rcases hev with ((rfl | rfl | rfl | rfl) | hev) | rfl
      · rfl
      · rfl
      · rfl
      · rfl
      · exact hrows rows ev hev
      · rfl
  · simp only [List.mem_append, List.mem_cons, List.mem_singleton, List.not_mem_nil,
      or_false] at hev
    rcases hev with (rfl | rfl | rfl | rfl) | rfl | rfl <;> rfl

theorem draw_screen_events (h : Handler) :
    (draw_screen h).1.events = h.events ++ (draw_screen_ops h).1 := rfl

theorem with_screen_size_events (h : Handler) (new_size : ScreenSize) :
    (with_screen_size h new_size).events = h.events := by
  unfold with_screen_size
  rfl

/-- C8, as amended.  `on_resize` stores the new size and then: if the diff map and the
Collection are both present it calls the layout once, on the main thread, with the new
column width, and, if the layout returned no error, redraws with the new logical lines,
while if the layout returned an error it returns that error and does not redraw; if one
of the two is absent it does not call the layout and redraws.  It starts no goroutine. -/
theorem on_resize_layout_and_draw (env : Env) (h : Handler) (old_size new_size : ScreenSize) :
    ((h.diff_map ≠ none ∧ h.collection ≠ none) →
      (∀ ll, env.render h.collection h.diff_map (to_int new_size.WidthCells) = (ll, none) →
        on_resize env h old_size new_size =
          draw_screen { with_screen_size h new_size with
            logical_lines := ll,
            events := h.events ++
              [Event.render h.collection h.diff_map (to_int new_size.WidthCells)] }) ∧
      (∀ ll e,
        env.render h.collection h.diff_map (to_int new_size.WidthCells) = (ll, some e) →
        on_resize env h old_size new_size =
          ({ with_screen_size h new_size with
            logical_lines := ll,
            events := h.events ++
              [Event.render h.collection h.diff_map (to_int new_size.WidthCells)] },
            Ret.err e))) ∧
    (¬ (h.diff_map ≠ none ∧ h.collection ≠ none) →
      on_resize env h old_size new_size = draw_screen (with_screen_size h new_size)) ∧
    (∃ evs, (on_resize env h old_size new_size).1.events = h.events ++ evs ∧
      ∀ ev ∈ evs, ev.is_job = false) := by
  by_cases hp : h.diff_map ≠ none ∧ h.collection ≠ none
  · have hres : ∀ ll oe,
        env.render h.collection h.diff_map (to_int new_size.WidthCells) = (ll, oe) →
        on_resize env h old_size new_size =
          (match oe with
           | none => draw_screen { with_screen_size h new_size with
              logical_lines := ll,
              events := h.events ++
                [Event.render h.collection h.diff_map (to_int new_size.WidthCells)] }
           | some e => ({ with_screen_size h new_size with
              logical_lines := ll,
              events := h.events ++
                [Event.render h.collection h.diff_map (to_int new_size.WidthCells)] },
              Ret.err e)) := by
      intro ll oe hr
      unfold on_resize render_diff with_screen_size
      simp only [hp, and_self, if_true, ne_eq, not_false_eq_true]
      simp only [hr]
      cases oe <;> simp only
    refine ⟨fun _ => ⟨fun ll hr => hres ll none hr, fun ll e hr => hres ll (some e) hr⟩,
      fun hn => absurd hp hn, ?_⟩
    cases hr : env.render h.collection h.diff_map (to_int new_size.WidthCells) with
    | mk ll oe =>
      rw [hres ll oe hr]
      cases oe with
      | none =>
        refine ⟨Event.render h.collection h.diff_map (to_int new_size.WidthCells) ::
          (draw_screen_ops { with_screen_size h new_size with
            logical_lines := ll,
            events := h.events ++
              [Event.render h.collection h.diff_map (to_int new_size.WidthCells)] }).1,
          by rw [draw_screen_events, List.append_assoc, List.singleton_append], ?_⟩
        intro ev hev
        rcases List.mem_cons.mp hev with rfl | hev
        · rfl
        · exact draw_screen_ops_no_job _ ev hev
      | some e =>
        refine ⟨[Event.render h.collection h.diff_map (to_int new_size.WidthCells)],
          rfl, ?_⟩
        intro ev hev
        rw [List.mem_singleton.mp hev]
        rfl
  · have hres : on_resize env h old_size new_size =
        draw_screen (with_screen_size h new_size) := by
      unfold on_resize with_screen_size
      simp only [hp, if_false]
    refine ⟨fun hn => absurd hn hp, fun _ => hres, ?_⟩
    rw [hres, draw_screen_events, with_screen_size_events]
    exact ⟨(draw_screen_ops (with_screen_size h new_size)).1, rfl,
      draw_screen_ops_no_job _⟩

/-- C8, witness: a resize from 80 to 40 columns with a diff map installed calls the
layout with `columns = 40` and then draws the new lines. -/
theorem on_resize_layout_and_draw_witness :
    (on_resize (example_env (some example_lines, none))
      (example_handler 4 (ScrollPos.mk 0 0)) (ScreenSize.mk 80 4) (ScreenSize.mk 40 4)).1.events =
      Event.render (some example_collection) (some example_diff_map) 40 ::
        (draw_screen_ops { example_handler 4 (ScrollPos.mk 0 0) with
          screen_size := { rows := 4, columns := 40, num_lines := 3 } }).1 := by
  rw [((on_resize_layout_and_draw (example_env (some example_lines, none))
    (example_handler 4 (ScrollPos.mk 0 0)) (ScreenSize.mk 80 4) (ScreenSize.mk 40 4)).1
    (by decide)).1 (some example_lines) rfl]
  decide

/-- C8, as stated, fails: with a diff map and a Collection installed and a layout that
returns an error, `on_resize` returns the error and the only thing it does is the call
of the layout: it does not redraw. -/
theorem on_resize_always_draws_fails :
    on_resize (example_env (none, some "layout failed"))
      (example_handler 4 (ScrollPos.mk 0 0)) (ScreenSize.mk 80 4) (ScreenSize.mk 40 4) =
      ({ example_handler 4 (ScrollPos.mk 0 0) with
          screen_size := { rows := 4, columns := 40, num_lines := 3 },
          logical_lines := none,
          events := [Event.render (some example_collection) (some example_diff_map) 40] },
        Ret.err "layout failed") ∧
    Event.StartAtomicUpdate ∉ (on_resize (example_env (none, some "layout failed"))
      (example_handler 4 (ScrollPos.mk 0 0)) (ScreenSize.mk 80 4)
      (ScreenSize.mk 40 4)).1.events := by
  decide

/-! ## `on_wakeup`: the loop over the channel -/

theorem handle_async_result_async_results (env : Env) (h : Handler) (r : AsyncResult)
    (q : List AsyncResult) :
    handle_async_result env { h with async_results := q } r =
      ({ (handle_async_result env h r).1 with async_results := q },
        (handle_async_result env h r).2) := by
  cases hrt : r.rtype with
  | COLLECTION =>
    unfold handle_async_result generate_diff
    simp only [hrt]
    cases r.collection <;> rfl
  | DIFF =>
    rcases Option.eq_none_or_eq_some h.collection with hc | ⟨c, hc⟩
    · unfold handle_async_result calculate_statistics
      simp only [hrt, hc]
    · cases hr : (env.render (some c) r.diff_map h.screen_size.columns).2 with
      | none =>
        rw [handle_diff_ok env h r c hrt hc hr,
          handle_diff_ok env { h with async_results := q } r c hrt hc hr]
        rfl
      | some e =>
        rw [handle_diff_err env h r c e hrt hc hr,
          handle_diff_err env { h with async_results := q } r c e hrt hc hr]
  | HIGHLIGHT =>
    unfold handle_async_result
    simp only [hrt]

theorem on_wakeup_loop_append (env : Env) (tail : List AsyncResult) :
    ∀ (pre : List AsyncResult) (h h1 : Handler), handle_each env pre h = some h1 →
      on_wakeup_loop env (pre ++ tail) { h with async_results := pre ++ tail } =
        on_wakeup_loop env tail { h1 with async_results := tail } := by
  intro pre
  induction pre with
  | nil =>
    intro h h1 hh
    simp only [handle_each, Option.some.injEq] at hh
    subst hh
    rfl
  | cons r pre ih =>
    intro h h1 hh
    cases herr : r.err with
    | some e => simp [handle_each, herr] at hh
    | none =>
      cases hres : handle_async_result env h r with
      | mk h2 ret =>
        cases ret with
        | ok =>
          simp only [handle_each, herr, hres] at hh
          rw [List.cons_append, on_wakeup_loop]
          simp only [herr]
          rw [handle_async_result_async_results env h r (pre ++ tail), hres]
          exact ih h2 h1 hh
        | err e => simp [handle_each, herr, hres] at hh
        | panic => simp [handle_each, herr, hres] at hh

theorem with_async_results_self (h : Handler) (q : List AsyncResult)
    (hq : h.async_results = q) : { h with async_results := q } = h := by
  subst hq
  rfl

/-! ## C6: draining a queue of envelopes that all succeed -/

/-- C6.  `on_wakeup` is a total function.  If handling the waiting envelopes one after
the other, oldest first, never fails and ends in the state `h1`, then `on_wakeup` returns
no error and ends in `h1` with an empty channel: it has handled every envelope once, in
FIFO order.  On an empty channel it returns no error and the handler, its events
included, is unchanged. -/
theorem on_wakeup_drains (env : Env) (h h1 : Handler)
    (hq : handle_each env h.async_results h = some h1) :
    on_wakeup env h = ({ h1 with async_results := [] }, Ret.ok) ∧
    (h.async_results = [] → on_wakeup env h = (h, Ret.ok)) := by
  constructor
  · have := on_wakeup_loop_append env [] h.async_results h h1 hq
    simp only [List.append_nil] at this
    rw [with_async_results_self h _ rfl] at this
    unfold on_wakeup
    rw [this]
    rfl
  · intro hempty
    unfold on_wakeup
    rw [hempty]
    rfl

/-- C6, witness: a COLLECTION envelope followed by a DIFF envelope are both handled, in
that order: the diff job is started first, then the layout runs and the screen is drawn,
and the channel is empty afterwards. -/
theorem on_wakeup_drains_witness :
    (on_wakeup (example_env (some example_lines, none))
      { example_handler 2 (ScrollPos.mk 0 0) with
        async_results := [collection_envelope tagged_collection,
                          diff_envelope example_diff_map] }).2 = Ret.ok ∧
    (on_wakeup (example_env (some example_lines, none))
      { example_handler 2 (ScrollPos.mk 0 0) with
        async_results := [collection_envelope tagged_collection,
                          diff_envelope example_diff_map] }).1.async_results = [] ∧
    (on_wakeup (example_env (some example_lines, none))
      { example_handler 2 (ScrollPos.mk 0 0) with
        async_results := [collection_envelope tagged_collection,
                          diff_envelope example_diff_map] }).1.events =
      [Event.go_diff [diff_job.mk "c.txt" "d.txt"] 0,
       Event.render (some tagged_collection) (some example_diff_map) 80,
       Event.StartAtomicUpdate, Event.GraphicsDeleteVisible, Event.MoveCursorTo 1 1,
       Event.ClearToEndOfScreen, Event.QueueWriteString "L0.line0",
       Event.MoveCursorVertically 1, Event.QueueWriteString "\r",
       Event.EndAtomicUpdate] := by
  rw [(on_wakeup_drains (example_env (some example_lines, none))
    { example_handler 2 (ScrollPos.mk 0 0) with
      async_results := [collection_envelope tagged_collection,
                        diff_envelope example_diff_map] }
    (handle_async_result (example_env (some example_lines, none))
      (handle_async_result (example_env (some example_lines, none))
        { example_handler 2 (ScrollPos.mk 0 0) with
          async_results := [collection_envelope tagged_collection,
                            diff_envelope example_diff_map] }
        (collection_envelope tagged_collection)).1
      (diff_envelope example_diff_map)).1 (by decide)).1]
  decide

/-! ## C5: an envelope that fails stops the drain -/

/-- C5.  Let the channel hold `pre ++ bad :: post`, where the envelopes of `pre` are all
handled without failure and leave the handler in `h1`.  If `bad` carries an error,
`on_wakeup` returns exactly that error, `post` stays in the channel in its order, and
nothing else changed after `pre`: no later envelope is handled and nothing is drawn.  If
`bad` is a DIFF envelope whose layout returns an error, `on_wakeup` returns exactly that
error, `post` stays in the channel, and the only event after `pre` is the call of the
layout: nothing is drawn. -/
theorem on_wakeup_stops_at_failure (env : Env) (h h1 : Handler)
    (pre post : List AsyncResult) (bad : AsyncResult)
    (hq : h.async_results = pre ++ bad :: post)
    (hpre : handle_each env pre h = some h1) :
    (∀ e, bad.err = some e →
      on_wakeup env h = ({ h1 with async_results := post }, Ret.err e)) ∧
    (∀ e c, bad.err = none → bad.rtype = ResultType.DIFF → h1.collection = some c →
      (env.render (some c) bad.diff_map h1.screen_size.columns).2 = some e →
      (on_wakeup env h).2 = Ret.err e ∧
        (on_wakeup env h).1.async_results = post ∧
        (on_wakeup env h).1.events =
          h1.events ++ [Event.render (some c) bad.diff_map h1.screen_size.columns]) := by
  have hloop : on_wakeup env h =
      on_wakeup_loop env (bad :: post) { h1 with async_results := bad :: post } := by
    have := on_wakeup_loop_append env (bad :: post) pre h h1 hpre
    rw [with_async_results_self h _ hq] at this
    unfold on_wakeup
    rw [hq, this]
  constructor
  · intro e herr
    rw [hloop, on_wakeup_loop]
    simp only [herr]
  · intro e c herr hrt hc hr
    rw [hloop, on_wakeup_loop]
    simp only [herr]
    rw [handle_diff_err env { h1 with async_results := post } bad c e hrt hc hr]
    exact ⟨rfl, rfl, rfl⟩

/-- C5, witness: behind a COLLECTION envelope, an envelope carrying the error `boom`
stops the drain: the error is returned, the HIGHLIGHT envelope behind it stays in the
channel and the only event is the diff job of the first envelope. -/
theorem on_wakeup_stops_at_failure_witness :
    on_wakeup (example_env (some example_lines, none))
      { Handler.zero_value "left" "right" with
        async_results := [collection_envelope tagged_collection,
                          error_envelope ResultType.DIFF "boom",
                          error_envelope ResultType.HIGHLIGHT "later"] } =
      ({ Handler.zero_value "left" "right" with
          collection := some tagged_collection,
          events := [Event.go_diff [diff_job.mk "c.txt" "d.txt"] 0],
          async_results := [error_envelope ResultType.HIGHLIGHT "later"] },
        Ret.err "boom") := by
  rw [(on_wakeup_stops_at_failure (example_env (some example_lines, none))
    { Handler.zero_value "left" "right" with
      async_results := [collection_envelope tagged_collection,
                        error_envelope ResultType.DIFF "boom",
                        error_envelope ResultType.HIGHLIGHT "later"] }
    (handle_async_result (example_env (some example_lines, none))
      { Handler.zero_value "left" "right" with
        async_results := [collection_envelope tagged_collection,
                          error_envelope ResultType.DIFF "boom",
                          error_envelope ResultType.HIGHLIGHT "later"] }
      (collection_envelope tagged_collection)).1
    [collection_envelope tagged_collection] [error_envelope ResultType.HIGHLIGHT "later"]
    (error_envelope ResultType.DIFF "boom") rfl (by decide)).1 "boom" rfl]
  decide

/-! ## C9: the scroll position stays an index -/

theorem draw_screen_scroll_pos (h : Handler) :
    (draw_screen h).1.scroll_pos = h.scroll_pos := rfl

theorem render_diff_scroll_pos (env : Env) (h : Handler) :
    (render_diff env h).1.scroll_pos = h.scroll_pos := by
  cases hr : (env.render h.collection h.diff_map h.screen_size.columns).2 with
  | none => rw [render_diff_ok env h hr]
  | some e => rw [render_diff_err env h e hr]

theorem handle_async_result_scroll_pos (env : Env) (h : Handler) (r : AsyncResult) :
    (handle_async_result env h r).1.scroll_pos = h.scroll_pos ∨
      (handle_async_result env h r).1.scroll_pos = ScrollPos.mk 0 0 := by
  cases hrt : r.rtype with
  | COLLECTION =>
    left
    unfold handle_async_result generate_diff
    simp only [hrt]
    cases r.collection <;> rfl
  | DIFF =>
    rcases Option.eq_none_or_eq_some h.collection with hc | ⟨c, hc⟩
    · left
      unfold handle_async_result calculate_statistics
      simp only [hrt, hc]
    · cases hr : (env.render (some c) r.diff_map h.screen_size.columns).2 with
      | none =>
        right
        rw [handle_diff_ok env h r c hrt hc hr]
        rfl
      | some e =>
        left
        rw [handle_diff_err env h r c e hrt hc hr]
  | HIGHLIGHT =>
    left
    unfold handle_async_result
    simp only [hrt]

theorem on_wakeup_loop_scroll_pos (env : Env) :
    ∀ (q : List AsyncResult) (h : Handler), h.scroll_pos = ScrollPos.mk 0 0 →
      (on_wakeup_loop env q h).1.scroll_pos = ScrollPos.mk 0 0 := by
  intro q
  induction q with
  | nil => intro h hz; exact hz
  | cons r rest ih =>
    intro h hz
    rw [on_wakeup_loop]
    cases herr : r.err with
    | some e => exact hz
    | none =>
      have hsp := handle_async_result_scroll_pos env { h with async_results := rest } r
      have hz2 : (handle_async_result env { h with async_results := rest } r).1.scroll_pos =
          ScrollPos.mk 0 0 := by
        rcases hsp with hsp | hsp
        · rw [hsp]; exact hz
        · exact hsp
      cases hres : handle_async_result env { h with async_results := rest } r with
      | mk h2 ret =>
        rw [hres] at hz2
        cases ret with
        | ok => exact ih h2 hz2
        | err e => exact hz2
        | panic => exact hz2

theorem with_screen_size_scroll_pos (h : Handler) (new_size : ScreenSize) :
    (with_screen_size h new_size).scroll_pos = h.scroll_pos := by
  unfold with_screen_size
  rfl

theorem on_resize_eq (env : Env) (h : Handler) (old_size new_size : ScreenSize) :
    on_resize env h old_size new_size =
      if h.diff_map ≠ none ∧ h.collection ≠ none then
        match render_diff env (with_screen_size h new_size) with
        | (self, Ret.ok) => draw_screen self
        | (self, ret) => (self, ret)
      else draw_screen (with_screen_size h new_size) := by
  unfold on_resize with_screen_size
  by_cases hp : h.diff_map ≠ none ∧ h.collection ≠ none
  · simp only [hp, and_self, if_true, ne_eq, not_false_eq_true]
  · simp only [hp, if_false]

theorem on_resize_scroll_pos (env : Env) (h : Handler) (old_size new_size : ScreenSize) :
    (on_resize env h old_size new_size).1.scroll_pos = h.scroll_pos := by
  have key : ∀ x : Handler,
      (match render_diff env x with
        | (self, Ret.ok) => draw_screen self
        | (self, ret) => (self, ret)).1.scroll_pos = x.scroll_pos := by
    intro x
    have hx := render_diff_scroll_pos env x
    cases hrd : render_diff env x with
    | mk h2 ret =>
      rw [hrd] at hx
      cases ret <;> exact hx
  rw [on_resize_eq]
  by_cases hp : h.diff_map ≠ none ∧ h.collection ≠ none
  · rw [if_pos hp, key, with_screen_size_scroll_pos]
  · rw [if_neg hp, draw_screen_scroll_pos, with_screen_size_scroll_pos]

theorem reachable_scroll_pos (h : Handler) (hr : Reachable h) :
    h.scroll_pos = ScrollPos.mk 0 0 := by
  induction hr with
  | init env h0 hz => exact hz
  | wakeup env h _ ih => exact on_wakeup_loop_scroll_pos env _ h ih
  | resize env h old_size new_size _ ih =>
    rw [on_resize_scroll_pos]; exact ih
  | push h r _ ih => exact ih

theorem slice_from_zero {α : Type} (s : List α) : slice_from s 0 = some s := by
  simp [slice_from]

theorem draw_screen_outer_no_panic (nl : Int) (lines : List LogicalLine) :
    ∀ (i : Nat) (nw : Int), (draw_screen_outer nl 0 lines i nw).2 = false := by
  induction lines with
  | nil => intro i nw; rfl
  | cons line rest ih =>
    intro i nw
    unfold draw_screen_outer
    by_cases hge : nw ≥ nl
    · simp only [hge, if_true]
    · have hs : (if i = 0 then slice_from line.screen_lines 0 else some line.screen_lines) =
          some line.screen_lines := by
        by_cases hi : i = 0
        · simp only [hi, if_true, slice_from_zero]
        · simp only [hi, if_false]
      simp only [hge, if_false, hs]
      exact ih _ _

theorem draw_screen_ops_no_panic (h : Handler) (hz : h.scroll_pos = ScrollPos.mk 0 0) :
    (draw_screen_ops h).2 = false := by
  unfold draw_screen_ops
  split
  · simp only [hz, slice_from_zero]
    exact draw_screen_outer_no_panic _ _ _ _
  · rfl

/-- C9.  In every state reachable from `initialize` (on a handler whose scroll position
is the zero value) by calls of `on_wakeup` and `on_resize` and by workers sending any
envelopes, with any collaborators: when `logical_lines` is present and non-empty,
`scroll_pos.logical_line` is the index of one of its lines and `scroll_pos.screen_line`
is at most the number of screen lines of that line; the two slice expressions of
`draw_screen` are in bounds, and `draw_screen` does not panic. -/
theorem reachable_scroll_pos_in_bounds (h : Handler) (hr : Reachable h) :
    scroll_pos_in_bounds h ∧
    (∀ ll, h.logical_lines = some ll →
      ∃ lines, slice_from ll.lines h.scroll_pos.logical_line = some lines ∧
        ∀ line, lines.head? = some line →
          (slice_from line.screen_lines h.scroll_pos.screen_line).isSome = true) ∧
    (draw_screen h).2 = Ret.ok := by
  have hz := reachable_scroll_pos h hr
  refine ⟨?_, ?_, ?_⟩
  · intro ll _ hne
    rw [hz]
    cases hl : ll.lines with
    | nil => exact absurd hl hne
    | cons line rest =>
      exact ⟨le_refl _, line, rfl, le_refl _, by simp⟩
  · intro ll _
    rw [hz]
    exact ⟨ll.lines, slice_from_zero _, fun line _ => by simp [slice_from_zero]⟩
  · unfold draw_screen
    simp only [draw_screen_ops_no_panic h hz]
    rfl

/-- C9, witness: after a whole session (initialize, a COLLECTION envelope, a wakeup, a
DIFF envelope, a wakeup) the logical lines are present and the scroll position is in
bounds. -/
theorem reachable_scroll_pos_in_bounds_witness :
    example_session.logical_lines = some example_lines ∧
    scroll_pos_in_bounds example_session ∧
    (draw_screen example_session).2 = Ret.ok :=
  ⟨by decide,
    (reachable_scroll_pos_in_bounds example_session
      (Reachable.wakeup _ _ (Reachable.push _ _ (Reachable.wakeup _ _
        (Reachable.push _ _ (Reachable.init _ _ rfl)))))).1,
    (reachable_scroll_pos_in_bounds example_session
      (Reachable.wakeup _ _ (Reachable.push _ _ (Reachable.wakeup _ _
        (Reachable.push _ _ (Reachable.init _ _ rfl)))))).2.2⟩

end KittyDiff
